import Mathlib

/-!
Verification development for the `ig-pub_utils` release pipeline
(`src/release-pub/fhir_publisher.py`, `release.py`, `release_ui.py`).

The Python sources are shallowly embedded as pure Lean functions:
subprocess results, the filesystem and git are passed in explicitly as
data, and the stateful methods become state-passing functions.  Each
definition follows one source function; the doc comments name it.
-/

namespace IgPub

/-! ## A small model of Python `re.search` with `re.IGNORECASE`

`ReleasePublisher.run_command` (fhir_publisher.py, lines 111-136) scans the
captured output with `re.search(p, hay, flags=re.IGNORECASE)`.  The patterns
that appear in the source use only: literal characters, the word boundary
`\b`, `\s*`, `.*` and one alternation of literal digit groups `(401|403)`.
`RTok` covers exactly those constructs and `research` implements Python's
`re.search` boolean outcome for them (case-insensitive, `.` not matching a
newline, `\b` between a word and a non-word position). -/

/-- One token of a compiled pattern. -/
inductive RTok where
  | ch (c : Char)
  | wordB
  | wsStar
  | anyStar
  | alts (ws : List String)
deriving DecidableEq, Repr

/-- A pattern is a token sequence. -/
abbrev RPat := List RTok

/-- Python `\w`: letters, digits, underscore (ASCII fragment suffices here). -/
def isWordChar (c : Char) : Bool := c.isAlphanum || c = '_'

/-- Case-insensitive character comparison, as under `re.IGNORECASE`. -/
def ciEq (a b : Char) : Bool := a.toLower = b.toLower

/-- Case-insensitively strip the word `w` from the front of `s`; returns the
rest of `s` and the last consumed character (for later boundary checks). -/
def consumeCi : List Char → List Char → Option Char → Option (Option Char × List Char)
  | [], s, prev => some (prev, s)
  | _ :: _, [], _ => none
  | w :: ws, c :: cs, _ => if ciEq w c then consumeCi ws cs (some c) else none

/-- Fueled matcher: can the token list match a prefix of `s`?  `prev` is the
character just left of the current position (`none` at string start). -/
def matchAt : Nat → RPat → List Char → Option Char → Bool
  | 0, _, _, _ => false
  | _ + 1, [], _, _ => true
  | fuel + 1, RTok.ch c :: ts, s, _ =>
      match s with
      | [] => false
      | d :: ds => ciEq c d && matchAt fuel ts ds (some d)
  | fuel + 1, RTok.wordB :: ts, s, prev =>
      let left := match prev with | some c => isWordChar c | none => false
      let right := match s with | d :: _ => isWordChar d | [] => false
      (left != right) && matchAt fuel ts s prev
  | fuel + 1, RTok.wsStar :: ts, s, prev =>
      matchAt fuel ts s prev ||
        (match s with
         | d :: ds => d.isWhitespace && matchAt fuel (RTok.wsStar :: ts) ds (some d)
         | [] => false)
  | fuel + 1, RTok.anyStar :: ts, s, prev =>
      matchAt fuel ts s prev ||
        (match s with
         | d :: ds => (d != '\n') && matchAt fuel (RTok.anyStar :: ts) ds (some d)
         | [] => false)
  | fuel + 1, RTok.alts ws :: ts, s, prev =>
      ws.any (fun w =>
        match consumeCi w.data s prev with
        | some (prev2, rest) => matchAt fuel ts rest prev2
        | none => false)

/-- Fueled scan over all start positions (the `search` part of `re.search`). -/
def searchAt : Nat → RPat → List Char → Option Char → Bool
  | 0, _, _, _ => false
  | fuel + 1, p, s, prev =>
      matchAt (p.length + s.length + 1) p s prev ||
        (match s with
         | [] => false
         | d :: ds => searchAt fuel p ds (some d))

/-- Boolean outcome of `re.search(p, s, flags=re.IGNORECASE)` for the pattern
fragment used by the source. -/
def research (p : RPat) (s : String) : Bool :=
  searchAt (s.data.length + 1) p s.data none

/-- Compile a literal string (no metacharacters) to pattern tokens. -/
def litToks (s : String) : RPat := s.data.map RTok.ch

/-! The default "generic" pattern list of `run_command`
(fhir_publisher.py lines 114-126), in source order. -/

/-- `\bFATAL\b` -/
def patFATAL : RPat := [RTok.wordB] ++ litToks "FATAL" ++ [RTok.wordB]

/-- `\bERROR\b` -/
def patERROR : RPat := [RTok.wordB] ++ litToks "ERROR" ++ [RTok.wordB]

/-- `Traceback \(most recent call last\):` (escaped parens are literal) -/
def patTraceback : RPat := litToks "Traceback (most recent call last):"

/-- `\bfatal:\b` -/
def patFatalColon : RPat := [RTok.wordB] ++ litToks "fatal:" ++ [RTok.wordB]

/-- `Authentication failed` -/
def patAuthFailed : RPat := litToks "Authentication failed"

/-- `Permission denied` -/
def patPermDenied : RPat := litToks "Permission denied"

/-- `HTTP\s*(401|403)` -/
def patHttp401403 : RPat := litToks "HTTP" ++ [RTok.wsStar, RTok.alts ["401", "403"]]

/-- `failed to push` -/
def patFailedToPush : RPat := litToks "failed to push"

/-- `could not read Username` -/
def patCouldNotReadUsername : RPat := litToks "could not read Username"

/-- `non-fast-forward` -/
def patNonFastForward : RPat := litToks "non-fast-forward"

/-- `BUILD FAILED` -/
def patBuildFailed : RPat := litToks "BUILD FAILED"

/-- The `generic` list of default failure patterns, in source order. -/
def genericPatterns : List RPat :=
  [patFATAL, patERROR, patTraceback, patFatalColon, patAuthFailed,
   patPermDenied, patHttp401403, patFailedToPush, patCouldNotReadUsername,
   patNonFastForward, patBuildFailed]

/-! ## CommandExecutor: `ReleasePublisher.run_command` (fhir_publisher.py 82-138)

State carried across an invocation: the run-scoped append-only `run.log`
(modelled as the list of appended chunks) and `_last_cmd_output`.  The child
process is modelled by the data it produces: its return code and its merged
stdout+stderr text. -/

/-- The mutable state of a `ReleasePublisher` touched by `run_command`:
the `run.log` contents (list of appended chunks) and `_last_cmd_output`. -/
structure ExecState where
  log : List String
  lastCmdOutput : String
deriving DecidableEq, Repr

/-- `_write_log` (fhir_publisher.py 46-51) appends `text`, adding a trailing
newline when missing.  This is the chunk it appends. -/
def logEntry (text : String) : String :=
  if text.endsWith "\n" then text else text ++ "\n"

/-- `_write_log`: append one chunk to the run-scoped log. -/
def writeLog (st : ExecState) (text : String) : ExecState :=
  { st with log := st.log ++ [logEntry text] }

/-- The two error outcomes `run_command` can raise:
`subprocess.CalledProcessError(rc, cmd, output=out)` on non-zero exit, and the
`RuntimeError` naming the first matched pattern (the spec's
`PatternDetectedError`; the captured output stays available in
`_last_cmd_output` and the run log). -/
inductive RunErr where
  | calledProcessError (returncode : Int) (output : String)
  | patternDetected (pattern : RPat)
deriving DecidableEq, Repr

/-- `ReleasePublisher.run_command` (fhir_publisher.py 82-138).  The child
process is summarised by `returncode` and its captured combined output `out`.
Order of effects, as in the source: log the command line, record
`_last_cmd_output`, append the full output to the log, then classify: raise
`CalledProcessError` on non-zero exit, else (when `detect_errors`) raise on
the first pattern of `error_patterns ++ genericPatterns` found in `out`. -/
def run_command (st : ExecState) (cmd : List String) (returncode : Int)
    (out : String) (detect_errors : Bool) (error_patterns : List RPat) :
    ExecState × Except RunErr String :=
  let display := String.intercalate " " cmd
  let st1 := writeLog st ("$ " ++ display)
  let st2 := { st1 with lastCmdOutput := out }
  let st3 := if out = "" then st2 else writeLog st2 out
  let result : Except RunErr String :=
    if returncode ≠ 0 then Except.error (RunErr.calledProcessError returncode out)
    else if detect_errors then
      match (error_patterns ++ genericPatterns).find? (fun p => research p out) with
      | some p => Except.error (RunErr.patternDetected p)
      | none => Except.ok out
    else Except.ok out
  (st3, result)

/-- C1: with `detect_errors = true`, a zero-exit command whose captured output
matches some caller-supplied or default pattern makes `run_command` raise the
pattern-detected error carrying the first matched pattern (in
caller-patterns-then-generic order), with the captured output recorded in
`_last_cmd_output`; the same invocation with detection disabled returns the
output as a success. -/
theorem run_command_pattern_gate (st : ExecState) (cmd : List String)
    (out : String) (ps : List RPat)
    (h : (ps ++ genericPatterns).any (fun p => research p out) = true) :
    ∃ p, (ps ++ genericPatterns).find? (fun p => research p out) = some p ∧
      (run_command st cmd 0 out true ps).2 =
        Except.error (RunErr.patternDetected p) ∧
      (run_command st cmd 0 out true ps).1.lastCmdOutput = out ∧
      (run_command st cmd 0 out false ps).2 = Except.ok out := by
  obtain ⟨x, hx, hpx⟩ := List.any_eq_true.mp h
  have hsome : ((ps ++ genericPatterns).find? (fun p => research p out)).isSome := by
    rw [List.find?_isSome]
    exact ⟨x, hx, hpx⟩
  obtain ⟨p, hp⟩ := Option.isSome_iff_exists.mp hsome
  refine ⟨p, hp, ?_, ?_, ?_⟩
  · simp [run_command, hp]
  · by_cases hout : out = "" <;> simp [run_command, writeLog, hout]
  · simp [run_command]

/-- Witness for `run_command_pattern_gate` at a concrete invocation. -/
theorem run_command_pattern_gate_witness :
    ((([] : List RPat) ++ genericPatterns).any
        (fun p => research p "FATAL: disk full") = true) ∧
    ∃ p, (([] : List RPat) ++ genericPatterns).find?
          (fun p => research p "FATAL: disk full") = some p ∧
      (run_command ⟨[], ""⟩ ["java"] 0 "FATAL: disk full" true []).2 =
        Except.error (RunErr.patternDetected p) ∧
      (run_command ⟨[], ""⟩ ["java"] 0 "FATAL: disk full" true []).1.lastCmdOutput =
        "FATAL: disk full" ∧
      (run_command ⟨[], ""⟩ ["java"] 0 "FATAL: disk full" false []).2 =
        Except.ok "FATAL: disk full" :=
  ⟨by decide,
   run_command_pattern_gate ⟨[], ""⟩ ["java"] "FATAL: disk full" [] (by decide)⟩

/-- C6: on every outcome — success, non-zero exit, or pattern detection — the
state returned by `run_command` (the state at the moment any error is raised)
already holds the command line and the full captured output in the run-scoped
append-only log, and the output in `_last_cmd_output`. -/
theorem run_command_always_logs (st : ExecState) (cmd : List String)
    (rc : Int) (out : String) (det : Bool) (ps : List RPat) :
    (run_command st cmd rc out det ps).1.log =
      st.log ++ [logEntry ("$ " ++ String.intercalate " " cmd)] ++
        (if out = "" then [] else [logEntry out]) ∧
    (run_command st cmd rc out det ps).1.lastCmdOutput = out := by
  constructor
  · by_cases hout : out = "" <;> simp [run_command, writeLog, hout]
  · by_cases hout : out = "" <;> simp [run_command, writeLog, hout]

/-- C10: pattern detection is case-insensitive (`re.IGNORECASE`): a zero-exit
command printing lowercase `error: ...`, capitalised `Error: ...` or uppercase
`ERROR: ...` all trip the default `\bERROR\b` pattern. -/
theorem run_command_case_insensitive (st : ExecState) (cmd : List String) :
    (run_command st cmd 0 "error: schema validation failed" true []).2 =
      Except.error (RunErr.patternDetected patERROR) ∧
    (run_command st cmd 0 "Error: schema validation failed" true []).2 =
      Except.error (RunErr.patternDetected patERROR) ∧
    (run_command st cmd 0 "ERROR: schema validation failed" true []).2 =
      Except.error (RunErr.patternDetected patERROR) :=
  ⟨rfl, rfl, rfl⟩

/-! ## DeploymentPreparer: `IGPublisher.prepare_deployment` (release.py 197-219)

Directory trees are flattened to lists of regular files: a file is its
relative path (list of components, in `rglob` traversal order) paired with
its byte size.  `shutil.move` / `shutil.copytree(dirs_exist_ok=True)` both
overwrite an existing destination entry, which `upsert` captures. -/

/-- A regular file: relative path components and size in bytes. -/
abbrev DFile := List String × Nat

/-- Python `file.name`: the last path component. -/
def base_name (p : List String) : String := p.getLast?.getD ""

/-- Place a file at key `k` with size `v` in a directory listing,
overwriting any existing entry at the same path (the semantics of
`shutil.move` and of `copytree` with `dirs_exist_ok=True`). -/
def upsert (l : List DFile) (k : List String) (v : Nat) : List DFile :=
  if l.any (fun e => decide (e.1 = k)) then
    l.map (fun e => if e.1 = k then (k, v) else e)
  else l ++ [(k, v)]

/-- Move/copy every file of `files` into the listing `dst`, keyed by `key`
(iteration in list order, as the `rglob` loop / `copytree` do). -/
def moveAll (dst : List DFile) (files : List DFile) (key : DFile → List String) :
    List DFile :=
  files.foldl (fun acc f => upsert acc (key f) f.2) dst

/-- Result of `prepare_deployment`: what remains under `webroot`, and the
contents of `deploy` and `release-assets`. -/
structure DeployResult where
  webroot : List DFile
  deploy : List DFile
  assets : List DFile
deriving DecidableEq, Repr

/-- `IGPublisher.prepare_deployment` (release.py 197-219): every regular file
under `webroot` strictly larger than `max_size` is moved into
`release-assets` under its base name; the remaining tree is copied (merging)
into `deploy`; finally `source/output/package.tgz`, when present (its size
given as `package_tgz`), is moved into `release-assets` too. -/
def prepare_deployment (webroot deploy assets : List DFile)
    (package_tgz : Option Nat) (max_size : Nat) : DeployResult :=
  let bigs := webroot.filter (fun f => decide (max_size < f.2))
  let smalls := webroot.filter (fun f => !decide (max_size < f.2))
  let assets1 := moveAll assets bigs (fun f => [base_name f.1])
  let deploy1 := moveAll deploy smalls (fun f => f.1)
  let assets2 :=
    match package_tgz with
    | some sz => upsert assets1 ["package.tgz"] sz
    | none => assets1
  { webroot := smalls, deploy := deploy1, assets := assets2 }

/-- Placing a file at a key not yet present just appends it. -/
theorem upsert_of_fresh (l : List DFile) (k : List String) (v : Nat)
    (h : ∀ e ∈ l, e.1 ≠ k) : upsert l k v = l ++ [(k, v)] := by
  have hc : l.any (fun e => decide (e.1 = k)) = false := by
    simp only [List.any_eq_false, decide_eq_true_eq]
    exact h
  simp [upsert, hc]

/-- Moving files whose keys are pairwise distinct and absent from the
destination appends them one-for-one: nothing is overwritten or lost. -/
theorem moveAll_fresh (key : DFile → List String) (files : List DFile) :
    ∀ acc : List DFile,
      (files.map key).Nodup →
      (∀ f ∈ files, ∀ e ∈ acc, key f ≠ e.1) →
      moveAll acc files key = acc ++ files.map (fun f => (key f, f.2)) := by
  induction files with
  | nil => intro acc _ _; simp [moveAll]
  | cons f fs ih =>
      intro acc hnd hfresh
      have h1 : upsert acc (key f) f.2 = acc ++ [(key f, f.2)] :=
        upsert_of_fresh acc (key f) f.2
          (fun e he hek => hfresh f (List.mem_cons_self f fs) e he hek.symm)
      have hnd' : (fs.map key).Nodup := (List.nodup_cons.mp hnd).2
      have hkf : key f ∉ fs.map key := (List.nodup_cons.mp hnd).1
      have hfresh' : ∀ g ∈ fs, ∀ e ∈ acc ++ [(key f, f.2)], key g ≠ e.1 := by
        intro g hg e he
        rcases List.mem_append.mp he with hacc | hone
        · exact hfresh g (List.mem_cons_of_mem f hg) e hacc
        · have : e = (key f, f.2) := by simpa using hone
          subst this
          intro hgk
          have hgk' : key g = key f := hgk
          exact hkf (hgk' ▸ List.mem_map_of_mem key hg)
      have step : moveAll acc (f :: fs) key = moveAll (acc ++ [(key f, f.2)]) fs key := by
        simp only [moveAll, List.foldl_cons, h1]
      rw [step, ih (acc ++ [(key f, f.2)]) hnd' hfresh']
      simp

/-- Filtering a file list by a predicate and its negation splits the total
byte count. -/
theorem sum_snd_filter_split (p : DFile → Bool) :
    ∀ l : List DFile,
      (((l.filter p).map Prod.snd).sum : Nat) +
          ((l.filter (fun a => !p a)).map Prod.snd).sum = (l.map Prod.snd).sum := by
  intro l
  induction l with
  | nil => simp
  | cons f fs ih =>
      by_cases h : p f = true <;>
        simp [List.filter_cons, h, ← ih] <;> omega

/-- On an empty `deploy`/`release-assets` start with no `package.tgz`, a tree
with distinct paths (a filesystem invariant) whose oversized files have
pairwise distinct base names makes `prepare_deployment` compute exactly:
small files stay and are copied to `deploy`, oversized files land in
`release-assets` under their base name, one-for-one. -/
theorem prepare_deployment_empty_eq (webroot : List DFile) (max_size : Nat)
    (hpaths : (webroot.map Prod.fst).Nodup)
    (hbigbases : ((webroot.filter (fun f => decide (max_size < f.2))).map
      (fun f => base_name f.1)).Nodup) :
    prepare_deployment webroot [] [] none max_size =
      { webroot := webroot.filter (fun f => !decide (max_size < f.2)),
        deploy := webroot.filter (fun f => !decide (max_size < f.2)),
        assets := (webroot.filter (fun f => decide (max_size < f.2))).map
          (fun f => ([base_name f.1], f.2)) } := by
  have hsmkeys : ((webroot.filter (fun f => !decide (max_size < f.2))).map
      Prod.fst).Nodup :=
    hpaths.sublist ((List.filter_sublist webroot).map Prod.fst)
  have hbigkeys : ((webroot.filter (fun f => decide (max_size < f.2))).map
      (fun f => [base_name f.1])).Nodup := by
    have heq : (webroot.filter (fun f => decide (max_size < f.2))).map
        (fun f => [base_name f.1]) =
        ((webroot.filter (fun f => decide (max_size < f.2))).map
          (fun f => base_name f.1)).map (fun b => [b]) := by
      rw [List.map_map]
      rfl
    rw [heq]
    exact hbigbases.map (fun a b hab => by simpa using hab)
  have hdep : moveAll [] (webroot.filter (fun f => !decide (max_size < f.2)))
      (fun f => f.1) = webroot.filter (fun f => !decide (max_size < f.2)) := by
    rw [moveAll_fresh _ _ [] hsmkeys (by intro f _ e he; simp at he)]
    simp
  have hass : moveAll [] (webroot.filter (fun f => decide (max_size < f.2)))
      (fun f => [base_name f.1]) =
      (webroot.filter (fun f => decide (max_size < f.2))).map
        (fun f => ([base_name f.1], f.2)) := by
    rw [moveAll_fresh _ _ [] hbigkeys (by intro f _ e he; simp at he)]
    simp
  simp only [prepare_deployment, hdep, hass]

/-- C2 counterexample: two oversized files that share a base name
(`a/x.bin`, 5 bytes and `b/x.bin`, 7 bytes, threshold 3) collide in
`release-assets`: `shutil.move` overwrites, so afterwards `deploy ∪ assets`
holds one file instead of two, 7 bytes instead of 12, and the 5-byte file
exists nowhere — refuting exactly-once relocation, file-count conservation
and byte-count conservation as claimed. -/
theorem prepare_deployment_collision :
    (prepare_deployment [(["a", "x.bin"], 5), (["b", "x.bin"], 7)] [] [] none 3).deploy.length +
        (prepare_deployment [(["a", "x.bin"], 5), (["b", "x.bin"], 7)] [] [] none 3).assets.length
      = 1 ∧
    ([(["a", "x.bin"], 5), (["b", "x.bin"], 7)] : List DFile).length = 2 ∧
    ((prepare_deployment [(["a", "x.bin"], 5), (["b", "x.bin"], 7)] [] [] none 3).deploy.map
          Prod.snd).sum +
        ((prepare_deployment [(["a", "x.bin"], 5), (["b", "x.bin"], 7)] [] [] none 3).assets.map
          Prod.snd).sum = 7 ∧
    (([(["a", "x.bin"], 5), (["b", "x.bin"], 7)] : List DFile).map Prod.snd).sum = 12 ∧
    (∀ e ∈ (prepare_deployment [(["a", "x.bin"], 5), (["b", "x.bin"], 7)] [] [] none 3).assets,
        e.2 ≠ 5) ∧
    (∀ e ∈ (prepare_deployment [(["a", "x.bin"], 5), (["b", "x.bin"], 7)] [] [] none 3).deploy,
        e.2 ≠ 5) := by
  decide

/-- C2 (amended): starting from empty `deploy` and `release-assets` dirs with
no `package.tgz`, a published tree with distinct paths (a filesystem
invariant) in which no two oversized files share a base name is partitioned
by `prepare_deployment`: every oversized file sits in `release-assets`
exactly once (under its base name) and not in `deploy`; every file within the
threshold sits in `deploy` exactly once; every `release-assets` entry exceeds
the threshold (so no small file sits there); file count and byte count are
conserved; and no file in `deploy` exceeds the threshold.  Small files may
freely share base names — only base-name collisions among oversized files
(the counterexample) break the claim. -/
theorem prepare_deployment_partition (webroot : List DFile) (max_size : Nat)
    (hpaths : (webroot.map Prod.fst).Nodup)
    (hbig : ((webroot.filter (fun f => decide (max_size < f.2))).map
      (fun f => base_name f.1)).Nodup) :
    (∀ f ∈ webroot, max_size < f.2 →
        (prepare_deployment webroot [] [] none max_size).assets.countP
            (fun e => decide (e = ([base_name f.1], f.2))) = 1 ∧
        ∀ s, (f.1, s) ∉ (prepare_deployment webroot [] [] none max_size).deploy) ∧
    (∀ f ∈ webroot, f.2 ≤ max_size →
        (prepare_deployment webroot [] [] none max_size).deploy.countP
            (fun e => decide (e = (f.1, f.2))) = 1) ∧
    (∀ e ∈ (prepare_deployment webroot [] [] none max_size).assets,
        max_size < e.2) ∧
    (prepare_deployment webroot [] [] none max_size).deploy.length +
        (prepare_deployment webroot [] [] none max_size).assets.length =
      webroot.length ∧
    ((prepare_deployment webroot [] [] none max_size).deploy.map Prod.snd).sum +
        ((prepare_deployment webroot [] [] none max_size).assets.map Prod.snd).sum =
      (webroot.map Prod.snd).sum ∧
    (∀ g ∈ (prepare_deployment webroot [] [] none max_size).deploy,
        g.2 ≤ max_size) := by
  have hchar := prepare_deployment_empty_eq webroot max_size hpaths hbig
  rw [hchar]
  dsimp only
  have hinj := List.inj_on_of_nodup_map hpaths
  refine ⟨?_, ?_, ?_, ?_, ?_, ?_⟩
  · intro f hf hbigf
    constructor
    · have hfbig : f ∈ webroot.filter (fun f => decide (max_size < f.2)) :=
        List.mem_filter.mpr ⟨hf, by simpa using hbigf⟩
      have hassnd : ((webroot.filter (fun f => decide (max_size < f.2))).map
          (fun f => ([base_name f.1], f.2))).Nodup := by
        refine List.Nodup.of_map Prod.fst ?_
        rw [List.map_map]
        have heq : (Prod.fst ∘ fun f : DFile => (([base_name f.1], f.2) : DFile)) =
            fun f : DFile => [base_name f.1] := rfl
        rw [heq]
        have heq2 : (webroot.filter (fun f => decide (max_size < f.2))).map
            (fun f : DFile => [base_name f.1]) =
            ((webroot.filter (fun f => decide (max_size < f.2))).map
              (fun f => base_name f.1)).map (fun b => [b]) := by
          rw [List.map_map]; rfl
        rw [heq2]
        exact hbig.map (fun a b hab => by simpa using hab)
      exact List.count_eq_one_of_mem hassnd
        (List.mem_map_of_mem (fun f => ([base_name f.1], f.2)) hfbig)

    · intro s hmem
      have hmemw : ((f.1, s) : DFile) ∈ webroot :=
        (List.mem_filter.mp hmem).1
      have heqf : f = ((f.1, s) : DFile) := hinj hf hmemw rfl
      have hsm := (List.mem_filter.mp hmem).2
      rw [← heqf] at hsm
      simp only [Bool.not_eq_true', decide_eq_false_iff_not] at hsm
      exact hsm hbigf
  · intro f hf hsmall
    have hfsm : f ∈ webroot.filter (fun f => !decide (max_size < f.2)) :=
      List.mem_filter.mpr ⟨hf, by simpa using Nat.not_lt.mpr hsmall⟩
    have hsmnd : (webroot.filter (fun f => !decide (max_size < f.2))).Nodup :=
      List.Nodup.of_map Prod.fst
        (hpaths.sublist ((List.filter_sublist webroot).map Prod.fst))
    have hfe : ((f.1, f.2) : DFile) = f := rfl
    rw [hfe]
    exact List.count_eq_one_of_mem hsmnd hfsm
  · intro e he
    obtain ⟨b, hb, hbeq⟩ := List.mem_map.mp he
    have hb2 := (List.mem_filter.mp hb).2
    simp only [decide_eq_true_eq] at hb2
    have he2 : e.2 = b.2 := by rw [← hbeq]
    rw [he2]
    exact hb2
  · simp only [List.length_map]
    have hlen := List.length_eq_length_filter_add (l := webroot)
      (fun f => decide (max_size < f.2))
    simp only [] at hlen
    omega
  · have hsum := sum_snd_filter_split (fun f => decide (max_size < f.2)) webroot
    have hmapsnd : ((webroot.filter (fun f => decide (max_size < f.2))).map
        (fun f => (([base_name f.1], f.2) : DFile))).map Prod.snd =
        (webroot.filter (fun f => decide (max_size < f.2))).map Prod.snd := by
      rw [List.map_map]; rfl
    rw [hmapsnd]
    omega
  · intro g hg
    have := (List.mem_filter.mp hg).2
    simp only [Bool.not_eq_true', decide_eq_false_iff_not] at this
    exact Nat.le_of_not_lt this

/-- Witness for `prepare_deployment_partition` at a concrete tree whose two
small files share the base name `index.html` — allowed by the hypotheses,
since only oversized files must have distinct base names. -/
theorem prepare_deployment_partition_witness :
    (prepare_deployment [(["big.bin"], 10), (["a", "index.html"], 2),
        (["b", "index.html"], 3)] [] [] none 5).assets.countP
        (fun e => decide (e = ((["big.bin"], 10) : DFile))) = 1 :=
  ((prepare_deployment_partition
      [(["big.bin"], 10), (["a", "index.html"], 2), (["b", "index.html"], 3)] 5
      (by decide) (by decide)).1 (["big.bin"], 10) (by decide) (by decide)).1

/-! ## RepositorySynchronizer: `ReleasePublisher.clone_repo` (release_ui.py 67-93)
and `IGPublisher.checkout_repo` (release.py 85-92)

The local checkout is a `LocalRepo` (tracking branch, sparse path set,
committed content, working-tree content); content is a list of repository
paths.  The environment supplies the remote's content per branch and the
success/failure of each external git operation, held fixed across calls ("no
intervening external changes").  `SyncWorld` also carries the process state
the claims mention: the current working directory, the commands issued via
`run_command`, and the count of warnings logged. -/

/-- Paths present in a checkout or on the remote. -/
abbrev FileSet := List String

/-- Working-tree restriction by a sparse path set: `none` means a full
checkout; `some dirs` keeps top-level files and everything under `dirs`
(the effect of `git sparse-checkout set dirs`). -/
def applySparse : Option (List String) → FileSet → FileSet
  | none, fs => fs
  | some dirs, fs =>
      fs.filter (fun p =>
        (!p.contains '/') || dirs.any (fun d => p == d || p.startsWith (d ++ "/")))

/-- A local clone: tracking branch (`none` = default), sparse path set,
committed content at HEAD, and working-tree content. -/
structure LocalRepo where
  branch : Option String
  sparse : Option (List String)
  headC : FileSet
  work : FileSet
deriving DecidableEq, Repr

/-- Process-and-disk state threaded through a synchronization call:
whether/what checkout sits at `localPath`, the process's current working
directory, the commands issued through `run_command`, and how many warnings
were logged. -/
structure SyncWorld where
  repo : Option LocalRepo
  cwd : String
  cmds : List (List String)
  warnings : Nat
deriving DecidableEq, Repr

/-- The external environment of a sync call: remote content per requested
branch and the outcome of each git operation.  Held fixed across repeated
calls to model "no intervening external changes". -/
structure SyncEnv where
  remote : Option String → FileSet
  cloneOk : Bool
  resetOk : Bool
  pullOk : Bool
  sparseInitOk : Bool
  sparseSetOk : Bool

/-- The error a failing `run_command` raises (`subprocess.CalledProcessError`
via `check=True`), carrying the failing command. -/
inductive SyncErr where
  | calledProcess (cmd : List String)
deriving DecidableEq, Repr

/-- Record one command issued through `run_command`. -/
def issueCmd (w : SyncWorld) (c : List String) : SyncWorld :=
  { w with cmds := w.cmds ++ [c] }

/-- The `try: repo.git.reset('--hard'); repo.remotes.origin.pull()` body of
`clone_repo`'s already-exists branch: hard reset restores the working tree
from HEAD (through the sparse filter), then a pull fast-forwards HEAD and the
working tree to the remote.  Returns the resulting checkout and whether the
whole update succeeded. -/
def updateExisting (env : SyncEnv) (r : LocalRepo) : LocalRepo × Bool :=
  if !env.resetOk then (r, false)
  else
    let r1 := { r with work := applySparse r.sparse r.headC }
    if !env.pullOk then (r1, false)
    else ({ r1 with headC := env.remote r.branch,
                    work := applySparse r.sparse (env.remote r.branch) }, true)

/-- `ReleasePublisher.clone_repo` (release_ui.py 67-93).  When `localPath`
exists: update in place, swallowing any failure as a logged warning.  When it
is absent: either the sparse two-step clone (blob-filtered `--sparse` clone,
then `chdir` into the tree, `sparse-checkout init` and `sparse-checkout set`
inside a `try/finally` that restores the original working directory), taken
when `use_sparse` and a non-empty `sparse_dirs` are given — note its clone
command carries no `--branch` — or a plain shallow clone with `--branch`
added exactly when a branch is supplied. -/
def clone_repo (env : SyncEnv) (w : SyncWorld) (url path : String)
    (branch : Option String) (use_sparse : Bool)
    (sparse_dirs : Option (List String)) : SyncWorld × Option SyncErr :=
  match w.repo with
  | some r =>
      let p := updateExisting env r
      ({ w with repo := some p.1,
                warnings := w.warnings + (if p.2 then 0 else 1) }, none)
  | none =>
      if use_sparse && !(sparse_dirs.getD []).isEmpty then
        let ds := sparse_dirs.getD []
        let c1 := ["git", "clone", "--depth=1", "--filter=blob:none", "--sparse", url, path]
        let w1 := issueCmd w c1
        if !env.cloneOk then (w1, some (SyncErr.calledProcess c1))
        else
          let r0 : LocalRepo :=
            { branch := none, sparse := some [], headC := env.remote none,
              work := applySparse (some []) (env.remote none) }
          let w2 := { w1 with repo := some r0 }
          let original := w2.cwd
          let w3 := { w2 with cwd := path }
          let c2 := ["git", "sparse-checkout", "init"]
          let w4 := issueCmd w3 c2
          if !env.sparseInitOk then
            ({ w4 with cwd := original }, some (SyncErr.calledProcess c2))
          else
            let c3 := ["git", "sparse-checkout", "set"] ++ ds
            let w5 := issueCmd w4 c3
            if !env.sparseSetOk then
              ({ w5 with cwd := original }, some (SyncErr.calledProcess c3))
            else
              let r1 := { r0 with sparse := some ds,
                                  work := applySparse (some ds) r0.headC }
              ({ w5 with repo := some r1, cwd := original }, none)
      else
        let c := ["git", "clone", "--depth=1"] ++
          (match branch with | some b => ["--branch", b] | none => []) ++ [url, path]
        let w1 := issueCmd w c
        if !env.cloneOk then (w1, some (SyncErr.calledProcess c))
        else
          ({ w1 with repo := some { branch := branch, sparse := none,
                                    headC := env.remote branch,
                                    work := env.remote branch } }, none)

/-- Result of `IGPublisher.checkout_repo` (release.py 85-92): whether a
pre-existing tree at `path` was deleted (`shutil.rmtree`), and the command
run. -/
structure CheckoutResult where
  removedExisting : Bool
  cmds : List String
deriving DecidableEq, Repr

/-- `IGPublisher.checkout_repo` (release.py 85-92): if `path` exists it is
removed with `shutil.rmtree`, then the repository is always shallow-cloned
afresh. -/
def checkout_repo (pathExists : Bool) (repo path : String) (depth : Nat) :
    CheckoutResult :=
  { removedExisting := pathExists,
    cmds := ["git clone --depth=" ++ toString depth ++ " https://github.com/" ++
             repo ++ ".git " ++ path] }

/-- An already-synchronized checkout satisfying "HEAD matches the remote and
the working tree is the (sparse-filtered) checkout of HEAD" is a fixed point
of the reset-and-pull update. -/
theorem updateExisting_fix_of (env : SyncEnv) (r : LocalRepo)
    (hh : r.headC = env.remote r.branch)
    (hwk : r.work = applySparse r.sparse r.headC) :
    (updateExisting env r).1 = r := by
  obtain ⟨b, s, h, wk⟩ := r
  dsimp at hh hwk
  subst hh
  subst hwk
  unfold updateExisting
  by_cases hr : env.resetOk <;> by_cases hp : env.pullOk <;> simp [hr, hp]

/-- Applying the reset-and-pull update twice is the same as applying it
once (the update is idempotent on the checkout). -/
theorem updateExisting_idem (env : SyncEnv) (r : LocalRepo) :
    (updateExisting env (updateExisting env r).1).1 = (updateExisting env r).1 := by
  unfold updateExisting
  by_cases hr : env.resetOk <;> by_cases hp : env.pullOk <;> simp [hr, hp]

/-- `clone_repo` on an existing `localPath` is exactly the in-place update:
no command is issued, no error escapes, and a warning is logged iff the
update failed. -/
theorem clone_repo_exists_eq (env : SyncEnv) (w : SyncWorld) (url path : String)
    (branch : Option String) (us : Bool) (ds : Option (List String))
    (r : LocalRepo) (hw : w.repo = some r) :
    clone_repo env w url path branch us ds =
      ({ w with repo := some (updateExisting env r).1,
                warnings := w.warnings +
                  (if (updateExisting env r).2 then 0 else 1) }, none) := by
  simp [clone_repo, hw]

/-- `clone_repo` on an absent `localPath` with a failing clone leaves no
checkout behind. -/
theorem clone_repo_absent_clone_fail (env : SyncEnv) (w : SyncWorld)
    (url path : String) (branch : Option String) (us : Bool)
    (ds : Option (List String)) (hw : w.repo = none)
    (hc : env.cloneOk = false) :
    (clone_repo env w url path branch us ds).1.repo = none := by
  simp only [clone_repo, hw]
  split_ifs with h1 h2 h3 <;> simp_all [issueCmd]

/-- After `clone_repo` on an absent `localPath`, either the clone failed and
no checkout exists, or a checkout exists that is a fixed point of the
reset-and-pull update. -/
theorem clone_repo_absent_cases (env : SyncEnv) (w : SyncWorld)
    (url path : String) (branch : Option String) (us : Bool)
    (ds : Option (List String)) (hw : w.repo = none) :
    ((clone_repo env w url path branch us ds).1.repo = none ∧
      env.cloneOk = false) ∨
    (∃ r, (clone_repo env w url path branch us ds).1.repo = some r ∧
      (updateExisting env r).1 = r) := by
  by_cases hc : env.cloneOk
  · right
    by_cases h1 : (us && !(ds.getD []).isEmpty) = true
    · by_cases hi : env.sparseInitOk
      · by_cases hst : env.sparseSetOk
        · refine ⟨{ branch := none, sparse := some (ds.getD []),
                    headC := env.remote none,
                    work := applySparse (some (ds.getD [])) (env.remote none) },
                  ?_, updateExisting_fix_of env _ rfl rfl⟩
          simp [clone_repo, hw, h1, hc, hi, hst, issueCmd]
        · refine ⟨{ branch := none, sparse := some [],
                    headC := env.remote none,
                    work := applySparse (some []) (env.remote none) },
                  ?_, updateExisting_fix_of env _ rfl rfl⟩
          simp [clone_repo, hw, h1, hc, hi, hst, issueCmd]
      · refine ⟨{ branch := none, sparse := some [],
                  headC := env.remote none,
                  work := applySparse (some []) (env.remote none) },
                ?_, updateExisting_fix_of env _ rfl rfl⟩
        simp [clone_repo, hw, h1, hc, hi, issueCmd]
    · refine ⟨{ branch := branch, sparse := none,
                headC := env.remote branch, work := env.remote branch },
              ?_, updateExisting_fix_of env _ rfl rfl⟩
      simp [clone_repo, hw, h1, hc, issueCmd]
  · left
    exact ⟨clone_repo_absent_clone_fail env w url path branch us ds hw
        (by simpa using hc), by simpa using hc⟩

/-- C3 counterexample: `IGPublisher.checkout_repo` (release.py), one of the
synchronization entry points the claim covers, deletes an existing
`localPath` (`shutil.rmtree`) and re-clones it instead of reusing and
refreshing it — already on this concrete call with an existing tree. -/
theorem checkout_repo_reclones_existing :
    (checkout_repo true "HL7/fhir-ig-history-template" "history-template" 1).removedExisting
        = true ∧
    (checkout_repo true "HL7/fhir-ig-history-template" "history-template" 1).cmds =
      ["git clone --depth=1 https://github.com/HL7/fhir-ig-history-template.git history-template"] :=
  ⟨rfl, rfl⟩

/-- C3 (amended, for `ReleasePublisher.clone_repo`): on an existing
`localPath` the tree is reused — no command (in particular no clone) is
issued, no error ever escapes — and it is refreshed by hard reset plus pull
when both succeed (no warning); when the update fails a warning is logged
and the local tree is kept (as-is if even the reset failed). -/
theorem clone_repo_reuses_existing (env : SyncEnv) (w : SyncWorld)
    (url path : String) (branch : Option String) (us : Bool)
    (ds : Option (List String)) (r : LocalRepo) (hw : w.repo = some r) :
    (clone_repo env w url path branch us ds).2 = none ∧
    (clone_repo env w url path branch us ds).1.cmds = w.cmds ∧
    (clone_repo env w url path branch us ds).1.repo =
      some (updateExisting env r).1 ∧
    (env.resetOk = true → env.pullOk = true →
      (clone_repo env w url path branch us ds).1.repo =
        some { r with headC := env.remote r.branch,
                      work := applySparse r.sparse (env.remote r.branch) } ∧
      (clone_repo env w url path branch us ds).1.warnings = w.warnings) ∧
    ((env.resetOk = false ∨ env.pullOk = false) →
      (clone_repo env w url path branch us ds).1.warnings = w.warnings + 1) ∧
    (env.resetOk = false →
      (clone_repo env w url path branch us ds).1.repo = some r) := by
  rw [clone_repo_exists_eq env w url path branch us ds r hw]
  refine ⟨rfl, rfl, rfl, ?_, ?_, ?_⟩
  · intro hr hp
    constructor
    · simp [updateExisting, hr, hp]
    · simp [updateExisting, hr, hp]
  · intro hfail
    rcases hfail with hr | hp
    · simp [updateExisting, hr]
    · by_cases hr : env.resetOk <;> simp [updateExisting, hr, hp]
  · intro hr
    simp [updateExisting, hr]

/-- Witness for `clone_repo_reuses_existing`: a concrete existing checkout
whose reset fails — the call still succeeds, issues nothing, logs one
warning and keeps the tree. -/
theorem clone_repo_reuses_existing_witness :
    (clone_repo ⟨fun _ => ["a.txt"], true, false, true, true, true⟩
        ⟨some ⟨none, none, ["a.txt"], ["a.txt"]⟩, "/w", [], 0⟩
        "https://github.com/x/y" "webroot" none false none).2 = none ∧
    (clone_repo ⟨fun _ => ["a.txt"], true, false, true, true, true⟩
        ⟨some ⟨none, none, ["a.txt"], ["a.txt"]⟩, "/w", [], 0⟩
        "https://github.com/x/y" "webroot" none false none).1.cmds = [] ∧
    (clone_repo ⟨fun _ => ["a.txt"], true, false, true, true, true⟩
        ⟨some ⟨none, none, ["a.txt"], ["a.txt"]⟩, "/w", [], 0⟩
        "https://github.com/x/y" "webroot" none false none).1.warnings = 1 ∧
    (clone_repo ⟨fun _ => ["a.txt"], true, false, true, true, true⟩
        ⟨some ⟨none, none, ["a.txt"], ["a.txt"]⟩, "/w", [], 0⟩
        "https://github.com/x/y" "webroot" none false none).1.repo =
      some ⟨none, none, ["a.txt"], ["a.txt"]⟩ := by
  have h := clone_repo_reuses_existing
    ⟨fun _ => ["a.txt"], true, false, true, true, true⟩
    ⟨some ⟨none, none, ["a.txt"], ["a.txt"]⟩, "/w", [], 0⟩
    "https://github.com/x/y" "webroot" none false none
    ⟨none, none, ["a.txt"], ["a.txt"]⟩ rfl
  exact ⟨h.1, h.2.1, h.2.2.2.2.1 (Or.inl rfl), h.2.2.2.2.2 rfl⟩

/-- C7: synchronizing twice in a row against a fixed environment ("no
intervening external changes") is idempotent — the checkout at `localPath`
after the second `clone_repo` call is identical to the checkout after the
first, on every path: existing tree, fresh full clone, fresh sparse clone,
and every modelled failure mode. -/
theorem clone_repo_idempotent (env : SyncEnv) (w : SyncWorld)
    (url path : String) (branch : Option String) (us : Bool)
    (ds : Option (List String)) :
    (clone_repo env (clone_repo env w url path branch us ds).1
        url path branch us ds).1.repo =
      (clone_repo env w url path branch us ds).1.repo := by
  cases hw : w.repo with
  | some r =>
      rw [clone_repo_exists_eq env w url path branch us ds r hw]
      rw [clone_repo_exists_eq env _ url path branch us ds
        (updateExisting env r).1 rfl]
      simp [updateExisting_idem]
  | none =>
      rcases clone_repo_absent_cases env w url path branch us ds hw with
        ⟨hnone, hc⟩ | ⟨r, hr, hfix⟩
      · rw [clone_repo_absent_clone_fail env _ url path branch us ds hnone hc,
          hnone]
      · rw [clone_repo_exists_eq env _ url path branch us ds r hr, hr]
        simp [hfix]

/-- C8: a `clone_repo` invocation never changes the calling process's working
directory: the sparse-checkout sequence saves it, `chdir`s into the clone and
restores it in a `finally`, on normal completion and on every failing inner
command alike; all other paths never touch it. -/
theorem clone_repo_preserves_cwd (env : SyncEnv) (w : SyncWorld)
    (url path : String) (branch : Option String) (us : Bool)
    (ds : Option (List String)) :
    (clone_repo env w url path branch us ds).1.cwd = w.cwd := by
  cases hw : w.repo with
  | some r => simp [clone_repo, hw]
  | none =>
      simp only [clone_repo, hw, issueCmd]
      split_ifs <;> rfl

/-- C9: when `localPath` is absent and sparse checkout is enabled with a
non-empty path list, the issued clone command is the blob-filtered sparse
clone with no `--branch` argument — the whole call does not depend on the
supplied branch at all — whereas the non-sparse path adds `--branch` to the
clone command exactly when a branch is given. -/
theorem sparse_clone_ignores_branch (env : SyncEnv) (w : SyncWorld)
    (url path bb : String) (ds : List String) (hw : w.repo = none)
    (hds : ds ≠ []) :
    clone_repo env w url path (some bb) true (some ds) =
      clone_repo env w url path none true (some ds) ∧
    (∃ rest, (clone_repo env w url path (some bb) true (some ds)).1.cmds =
      w.cmds ++
        [["git", "clone", "--depth=1", "--filter=blob:none", "--sparse", url, path]]
        ++ rest) ∧
    (clone_repo env w url path (some bb) false none).1.cmds =
      w.cmds ++ [["git", "clone", "--depth=1", "--branch", bb, url, path]] := by
  have hne : ds.isEmpty = false := by
    cases ds with
    | nil => exact absurd rfl hds
    | cons a l => rfl
  refine ⟨?_, ?_, ?_⟩
  · simp [clone_repo, hw, hne]
  · simp only [clone_repo, hw, hne, issueCmd]
    by_cases hc : env.cloneOk
    · by_cases hi : env.sparseInitOk
      · by_cases hst : env.sparseSetOk
        · exact ⟨[["git", "sparse-checkout", "init"],
                  "git" :: "sparse-checkout" :: "set" :: ds],
                 by simp [hc, hi, hst, hds]⟩
        · exact ⟨[["git", "sparse-checkout", "init"],
                  "git" :: "sparse-checkout" :: "set" :: ds],
                 by simp [hc, hi, hst, hds]⟩
      · exact ⟨[["git", "sparse-checkout", "init"]], by simp [hc, hi, hds]⟩
    · exact ⟨[], by simp [hc, hds]⟩
  · by_cases hc : env.cloneOk <;> simp [clone_repo, hw, hc, issueCmd]

/-- Witness for `sparse_clone_ignores_branch` at a concrete absent path with
`sparse_dirs = ["templates", "assets"]`. -/
theorem sparse_clone_ignores_branch_witness :
    clone_repo ⟨fun _ => ["templates/t1"], true, true, true, true, true⟩
        ⟨none, "/w", [], 0⟩ "https://github.com/x/y" "webroot"
        (some "main") true (some ["templates", "assets"]) =
      clone_repo ⟨fun _ => ["templates/t1"], true, true, true, true, true⟩
        ⟨none, "/w", [], 0⟩ "https://github.com/x/y" "webroot"
        none true (some ["templates", "assets"]) ∧
    (∃ rest, (clone_repo ⟨fun _ => ["templates/t1"], true, true, true, true, true⟩
        ⟨none, "/w", [], 0⟩ "https://github.com/x/y" "webroot"
        (some "main") true (some ["templates", "assets"])).1.cmds =
      ([] : List (List String)) ++
        [["git", "clone", "--depth=1", "--filter=blob:none", "--sparse",
          "https://github.com/x/y", "webroot"]] ++ rest) ∧
    (clone_repo ⟨fun _ => ["templates/t1"], true, true, true, true, true⟩
        ⟨none, "/w", [], 0⟩ "https://github.com/x/y" "webroot"
        (some "main") false none).1.cmds =
      ([] : List (List String)) ++
        [["git", "clone", "--depth=1", "--branch", "main",
          "https://github.com/x/y", "webroot"]] :=
  sparse_clone_ignores_branch
    ⟨fun _ => ["templates/t1"], true, true, true, true, true⟩
    ⟨none, "/w", [], 0⟩ "https://github.com/x/y" "webroot" "main"
    ["templates", "assets"] rfl (by decide)

/-! ## ChangePublisher: `IGPublisher.push_changes` (release.py 221-261)

A run is summarised by the data that decides its control flow: the
`push_changes` config flag, whether `git diff --staged --quiet` exits 0 (the
staged diff is empty), and the optional GitHub token.  The git side effects
are recorded as an ordered command list. -/

/-- One git/rsync operation issued by `push_changes`, in order. -/
inductive GitCmd where
  | checkoutBranch (name : String)
  | rsyncMirror (src dst : String)
  | addPath (p : String)
  | diffStagedQuiet
  | commit (msg : String)
  | remoteSetUrl (url : String)
  | pushOrigin (remoteUrl : String) (branch : String)
deriving DecidableEq, Repr

/-- Outcome of `push_changes`: the operations run, and whether a commit and
a push happened. -/
structure PushResult where
  ops : List GitCmd
  committed : Bool
  pushed : Bool
deriving DecidableEq, Repr

/-- Recursive worker for `strStarts`. -/
def strStartsGo : List Char → List Char → Bool
  | [], _ => true
  | _ :: _, [] => false
  | a :: as, b :: bs => a == b && strStartsGo as bs

/-- Python `s.startswith(pre)`, executable by kernel reduction. -/
def strStarts (pre s : String) : Bool := strStartsGo pre.data s.data

/-- The token-authenticated remote URL substituted before the push
(release.py 255). -/
def tokenRemoteUrl (tok repo : String) : String :=
  "https://" ++ tok ++ "@github.com/" ++ repo ++ ".git"

/-- The remote URL the webroot clone starts with (release.py 91/104): the
`origin` a token-less push goes to. -/
def plainRemoteUrl (repo : String) : String :=
  "https://github.com/" ++ repo ++ ".git"

/-- `IGPublisher.push_changes` (release.py 221-261): skip entirely unless
configured to push; create a timestamp-suffixed branch, mirror the deploy
sub-path (`rsync --delete`), stage it, then test `git diff --staged --quiet`.
Exit 0 (empty staged diff) stops the stage with no commit and no push.
Otherwise commit once; when a token is configured, point `origin` at the
token-authenticated URL; then push the branch — with no token, the push is
attempted anyway against the plain HTTPS remote (no precondition check). -/
def push_changes (pushFlag : Bool) (ig_folder webroot_repo : String)
    (github_token : Option String) (stamp : String)
    (stagedDiffEmpty : Bool) : PushResult :=
  if !pushFlag then { ops := [], committed := false, pushed := false }
  else
    let branch := "update-" ++ ig_folder ++ "-" ++ stamp
    let pre := [GitCmd.checkoutBranch branch,
                GitCmd.rsyncMirror ("deploy/" ++ ig_folder ++ "/") (ig_folder ++ "/"),
                GitCmd.addPath (ig_folder ++ "/"),
                GitCmd.diffStagedQuiet]
    if stagedDiffEmpty then { ops := pre, committed := false, pushed := false }
    else
      let commitOp := GitCmd.commit ("Update " ++ ig_folder ++ " IG content")
      match github_token with
      | some tok =>
          { ops := pre ++ [commitOp,
                           GitCmd.remoteSetUrl (tokenRemoteUrl tok webroot_repo),
                           GitCmd.pushOrigin (tokenRemoteUrl tok webroot_repo) branch],
            committed := true, pushed := true }
      | none =>
          { ops := pre ++ [commitOp,
                           GitCmd.pushOrigin (plainRemoteUrl webroot_repo) branch],
            committed := true, pushed := true }

/-- Does an operation list contain a commit? -/
def hasCommit (ops : List GitCmd) : Bool :=
  ops.any (fun c => match c with | GitCmd.commit _ => true | _ => false)

/-- Does an operation list contain a push? -/
def hasPush (ops : List GitCmd) : Bool :=
  ops.any (fun c => match c with | GitCmd.pushOrigin _ _ => true | _ => false)

/-- C4: when the staged diff is empty the stage stops as a successful no-op —
no commit and no push appear among the issued operations — and whenever a
push happens the staged diff was non-empty and exactly one commit was made
(so every pushed release branch carries exactly one commit with a non-empty
staged diff against the tip it branched from). -/
theorem push_changes_noop_guard (pushFlag : Bool) (ig repo : String)
    (tok : Option String) (stamp : String) (se : Bool) :
    (se = true →
      (push_changes pushFlag ig repo tok stamp se).committed = false ∧
      (push_changes pushFlag ig repo tok stamp se).pushed = false ∧
      hasCommit (push_changes pushFlag ig repo tok stamp se).ops = false ∧
      hasPush (push_changes pushFlag ig repo tok stamp se).ops = false) ∧
    ((push_changes pushFlag ig repo tok stamp se).pushed = true →
      se = false ∧ pushFlag = true ∧
      (push_changes pushFlag ig repo tok stamp se).committed = true ∧
      (push_changes pushFlag ig repo tok stamp se).ops.countP
        (fun c => match c with | GitCmd.commit _ => true | _ => false) = 1) := by
  cases pushFlag with
  | false => simp [push_changes, hasCommit, hasPush]
  | true =>
      cases se with
      | true => simp [push_changes, hasCommit, hasPush]
      | false =>
          cases tok with
          | none => simp [push_changes, hasCommit, hasPush, List.countP_append]
          | some t => simp [push_changes, hasCommit, hasPush, List.countP_append]

/-- Witness for `push_changes_noop_guard`: an empty staged diff on a
push-enabled run commits and pushes nothing. -/
theorem push_changes_noop_guard_witness :
    (push_changes true "hiv" "WorldHealthOrganization/smart-html" none
        "20250101-000000" true).committed = false ∧
    (push_changes true "hiv" "WorldHealthOrganization/smart-html" none
        "20250101-000000" true).pushed = false :=
  have h := push_changes_noop_guard true "hiv" "WorldHealthOrganization/smart-html"
    none "20250101-000000" true
  ⟨(h.1 rfl).1, (h.1 rfl).2.1⟩

/-- C5 counterexample: with pushing requested, a non-empty staged diff and
no configured token, release.py's `push_changes` raises no precondition
error at all — it commits and attempts the network push against the plain
`https://` remote. -/
theorem push_without_token_attempts_https_push :
    (push_changes true "hiv" "WorldHealthOrganization/smart-html" none
        "20250101-000000" false).pushed = true ∧
    GitCmd.pushOrigin "https://github.com/WorldHealthOrganization/smart-html.git"
        "update-hiv-20250101-000000" ∈
      (push_changes true "hiv" "WorldHealthOrganization/smart-html" none
        "20250101-000000" false).ops ∧
    strStarts "https://" "https://github.com/WorldHealthOrganization/smart-html.git"
      = true := by
  refine ⟨rfl, ?_, by decide⟩
  simp [push_changes, plainRemoteUrl]

/-! ## Preflight and the pipeline prefix:
`ReleasePublisher.preflight` / `ReleasePublisher.run` (fhir_publisher.py
59-79, 172-177)

`run()` is `preflight(); prepare(); build(); publish()`.  `preflight` runs
`java -version` (a local subprocess, no network) and then applies the token
check; `prepare`'s first statement is the clone of the history repository —
the pipeline's first network operation.  The model follows `run()` up to
that first network operation, recording the operations attempted. -/

/-- `_is_github_https` (fhir_publisher.py 53-54): the check covers only URLs
starting with `https://github.com/`, not arbitrary `https://` remotes. -/
def is_github_https (url : String) : Bool :=
  strStarts "https://github.com/" url

/-- The two failures `preflight` can raise (both `RuntimeError` in the
source): missing Java runtime, or a github-HTTPS webroot with no
`GITHUB_TOKEN`/`GH_TOKEN` configured (the spec's `PreconditionError`). -/
inductive PreflightErr where
  | javaMissing
  | noGithubToken
deriving DecidableEq, Repr

/-- `ReleasePublisher.preflight` (fhir_publisher.py 59-79): require a Java
runtime, then fail when the webroot remote is github-HTTPS and no token is
present. -/
def preflight (javaOk : Bool) (webroot_repo : String) (has_token : Bool) :
    Except PreflightErr Unit :=
  if !javaOk then Except.error PreflightErr.javaMissing
  else if is_github_https webroot_repo && !has_token then
    Except.error PreflightErr.noGithubToken
  else Except.ok ()

/-- An operation attempted by the pipeline prefix: the local `java -version`
subprocess, or a network git clone. -/
inductive PipeOp where
  | javaCheck
  | networkClone (url : String)
deriving DecidableEq, Repr

/-- `ReleasePublisher.run` (fhir_publisher.py 172-177) followed up to the
pipeline's first network operation: `preflight` (which attempts the local
`java -version` check and then the token check), and — only if `preflight`
passed — `prepare`'s first action, the network clone of the history
repository. -/
def run_upto_first_network (javaOk : Bool) (webroot_repo history_repo : String)
    (has_token : Bool) : List PipeOp × Option PreflightErr :=
  if !javaOk then ([PipeOp.javaCheck], some PreflightErr.javaMissing)
  else if is_github_https webroot_repo && !has_token then
    ([PipeOp.javaCheck], some PreflightErr.noGithubToken)
  else ([PipeOp.javaCheck, PipeOp.networkClone history_repo], none)

/-- C5 (amended): in the fhir_publisher pipeline, when the webroot remote
starts with `https://github.com/` and no token is configured, `run` fails in
`preflight` with the missing-token precondition error before any network
operation is attempted — the only operation attempted is the local Java
check.  (The check does not cover other `https://` remotes, and release.py's
push path has no such check at all: see the counterexample.) -/
theorem preflight_fail_fast (webroot_repo history_repo : String)
    (h : is_github_https webroot_repo = true) :
    run_upto_first_network true webroot_repo history_repo false =
      ([PipeOp.javaCheck], some PreflightErr.noGithubToken) ∧
    preflight true webroot_repo false = Except.error PreflightErr.noGithubToken ∧
    ∀ u, PipeOp.networkClone u ∉
      (run_upto_first_network true webroot_repo history_repo false).1 := by
  refine ⟨?_, ?_, ?_⟩
  · simp [run_upto_first_network, h]
  · simp [preflight, h]
  · intro u
    simp [run_upto_first_network, h]

/-- Witness for `preflight_fail_fast` at the default webroot remote. -/
theorem preflight_fail_fast_witness :
    run_upto_first_network true
        "https://github.com/WorldHealthOrganization/smart-html"
        "https://github.com/HL7/fhir-ig-history-template" false =
      ([PipeOp.javaCheck], some PreflightErr.noGithubToken) ∧
    preflight true "https://github.com/WorldHealthOrganization/smart-html" false =
      Except.error PreflightErr.noGithubToken ∧
    ∀ u, PipeOp.networkClone u ∉
      (run_upto_first_network true
        "https://github.com/WorldHealthOrganization/smart-html"
        "https://github.com/HL7/fhir-ig-history-template" false).1 :=
  preflight_fail_fast "https://github.com/WorldHealthOrganization/smart-html"
    "https://github.com/HL7/fhir-ig-history-template" (by decide)

end IgPub
